import Mathlib

/-!
Verification development for the aws-eb build orchestrator (aws-eb.py).

The Python source is shallowly embedded: pure helpers become Lean
functions, the per-recipe orchestration pass becomes an explicit state
transformer over a model of the JSON status store, and every external
effect (the easybuild toolchain, S3, EC2) is represented either by an
oracle parameter or by an explicit event trace in the result.

Python `dict` objects are modelled with reference semantics where it
matters: `statdict_template` (aws-eb.py:543) is a single dict object that
is inserted by reference for the target recipe (line 564) and for each
previously unknown dependency (line 695), so mutations through one key
are visible through every key bound to that object.  The store model
below (`PyStore`) keeps that shared object explicit.

String helpers from the Python runtime (`str.split`, `str.isdigit`,
substring membership) are implemented structurally over character lists
so that all definitions evaluate by kernel reduction.
-/

/- ### Python string helpers -/

/-- Python `s.split(sep)` for a single-character separator, on char lists.
`'' .split(sep)` is `['']`, and empty fields are kept, as in Python. -/
def splitCharsOn (sep : Char) : List Char → List (List Char)
  | [] => [[]]
  | c :: rest =>
    match splitCharsOn sep rest with
    | [] => [[c]]
    | g :: gs => if c = sep then [] :: g :: gs else (c :: g) :: gs

/-- Python `version_str.split(sep)` lifted back to strings. -/
def pySplit (s : String) (sep : Char) : List String :=
  (splitCharsOn sep s.data).map List.asString

/-- Python `str.isdigit` for the ASCII strings that occur here:
nonempty and consisting of digits only. -/
def pyIsDigit (s : String) : Bool :=
  !s.data.isEmpty && s.data.all Char.isDigit

/-- Whether the character sequence `needle` occurs at the start of `l`. -/
def startsWithSeq : List Char → List Char → Bool
  | [], _ => true
  | _ :: _, [] => false
  | a :: as, b :: bs => a = b && startsWithSeq as bs

/-- Whether the character sequence `needle` occurs anywhere inside `l`
(Python `needle in s`). -/
def hasSeq (needle : List Char) : List Char → Bool
  | [] => needle.isEmpty
  | c :: rest => startsWithSeq needle (c :: rest) || hasSeq needle rest

/-- Python `needle in s` on strings. -/
def pyInStr (needle s : String) : Bool :=
  hasSeq needle.data s.data

/-- Numeric value of a digit string (Python `int(part)` for digit parts). -/
def digitsToNat (l : List Char) : Nat :=
  l.foldl (fun a c => a * 10 + (c.toNat - 48)) 0

/- ### ConfigManager.sversion and Python tuple comparison (aws-eb.py:3864-3879) -/

/-- A member of the tuple returned by `ConfigManager.sversion`: a Python
int for a numeric dot-component, a Python str otherwise. -/
inductive PyVal where
  | int (n : Int)
  | str (s : String)
deriving DecidableEq, Repr

/-- `ConfigManager.sversion` (aws-eb.py:3864): split the version string on
dots; numeric parts become ints, all other parts stay strings. -/
def sversion (versionStr : String) : List PyVal :=
  (pySplit versionStr ('.')).map fun part =>
    if pyIsDigit part then PyVal.int (digitsToNat part.data : Int) else PyVal.str part

/-- Python `==` on int/str values: never raises, mixed kinds are unequal. -/
def pyEq : PyVal → PyVal → Bool
  | .int a, .int b => a == b
  | .str a, .str b => a == b
  | _, _ => false

/-- Python `<` on int/str values: comparing an int with a str raises
`TypeError`, modelled as `Except.error ()`. -/
def pyLtVal : PyVal → PyVal → Except Unit Bool
  | .int a, .int b => .ok (decide (a < b))
  | .str a, .str b => .ok (decide (a < b))
  | _, _ => .error ()

/-- Python `<` on tuples of int/str values: walk the components pairwise
with `==` until the first difference, then compare with `<` (which may
raise); a strict prefix is smaller. -/
def pyLtList : List PyVal → List PyVal → Except Unit Bool
  | [], [] => .ok false
  | [], _ :: _ => .ok true
  | _ :: _, [] => .ok false
  | a :: as, b :: bs => if pyEq a b then pyLtList as bs else pyLtVal a b

/-- The spec side of claim C2: purely numeric versions compared
field-by-field as integers, lexicographically, strict prefix smaller. -/
def specNumericLt : List Int → List Int → Bool
  | [], [] => false
  | [], _ :: _ => true
  | _ :: _, [] => false
  | a :: as, b :: bs => if a = b then specNumericLt as bs else decide (a < b)

/-- Components of an `sversion` tuple that are Python ints. -/
def pyInts (l : List PyVal) : List Int :=
  l.filterMap fun v => match v with | .int n => some n | .str _ => none

/-- True when every component of the tuple is a Python int. -/
def allInt (l : List PyVal) : Bool :=
  l.all fun v => match v with | .int _ => true | .str _ => false

/- ### Toolchain policy (aws-eb.py:577-595) -/

/-- Result of the toolchain policy checks in `Builder.build_all_eb`. -/
inductive Policy where
  | skipit (reason : String)
  | ok
deriving DecidableEq, Repr

/-- aws-eb.py:577-595.  Rule 1: the package itself is a tracked toolchain
whose version is below the table minimum.  Rule 2: the declared toolchain
is not in the table.  Rule 3: the declared toolchain version is below the
table minimum.  The `sversion` comparisons can raise `TypeError`, which
propagates (`Except.error`). -/
def toolchainPolicy (minToolchains : List (String × String))
    (name version tcName tcVersion : String) : Except Unit Policy := do
  match minToolchains.lookup name with
  | some minv =>
      let lt ← pyLtList (sversion version) (sversion minv)
      if lt then
        return Policy.skipit (("toolchain version too old: ") ++ version)
  | none => pure ()
  match minToolchains.lookup tcName with
  | none => return Policy.skipit (("toolchain not supported: ") ++ tcName)
  | some minv =>
      let lt ← pyLtList (sversion tcVersion) (sversion minv)
      if lt then
        return Policy.skipit ((("toolchain version too old: ") ++ tcName) ++ (("-") ++ tcVersion))
      else
        return Policy.ok

/- ### Theorems for claims C2 and C3 -/

theorem pyLtList_allInt (a b : List PyVal) (ha : allInt a = true) (hb : allInt b = true) :
    pyLtList a b = .ok (specNumericLt (pyInts a) (pyInts b)) := by
  induction a generalizing b with
  | nil =>
      cases b with
      | nil => rfl
      | cons y ys =>
          cases y with
          | int n => simp [pyLtList, pyInts, specNumericLt]
          | str s => simp [allInt] at hb
  | cons x xs ih =>
      cases x with
      | str s => simp [allInt] at ha
      | int n =>
          cases b with
          | nil => simp [pyLtList, pyInts, specNumericLt]
          | cons y ys =>
              cases y with
              | str s => simp [allInt] at hb
              | int m =>
                  simp only [allInt, List.all_cons, Bool.and_eq_true] at ha hb
                  by_cases h : n = m
                  · subst h
                    simpa [pyLtList, pyEq, pyInts, specNumericLt] using
                      ih ys (by simpa [allInt] using ha.2) (by simpa [allInt] using hb.2)
                  · have hne : (n == m) = false := by simpa using h
                    simp [pyLtList, pyEq, pyLtVal, pyInts, specNumericLt, hne, h]

/-- C2 (amended): on purely numeric version strings the comparison made by
`sversion`/Python tuple `<` is total and equals field-by-field integer
comparison, while comparing a numeric component against a non-numeric one
raises `TypeError` instead of treating the non-numeric side as lower. -/
theorem C2_corrected :
    (∀ v w : String, allInt (sversion v) = true → allInt (sversion w) = true →
       pyLtList (sversion v) (sversion w)
         = .ok (specNumericLt (pyInts (sversion v)) (pyInts (sversion w)))) ∧
    (∀ n : Int, ∀ s : String, pyLtVal (PyVal.int n) (PyVal.str s) = .error ()) :=
  ⟨fun v w hv hw => pyLtList_allInt _ _ hv hw, fun _ _ => rfl⟩

/-- Witness for C2_corrected at the concrete pair 10.3 vs 11.0. -/
theorem C2_corrected_witness :
    pyLtList (sversion ("10.3")) (sversion ("11.0"))
      = .ok (specNumericLt (pyInts (sversion ("10.3"))) (pyInts (sversion ("11.0")))) :=
  C2_corrected.1 ("10.3") ("11.0") (by rfl) (by rfl)

/-- C2 counterexample: the comparison the minimum-toolchain checks perform
is not total.  Comparing version "2023.1" against the table entry "2022a"
(the default minimum for the foss toolchain) raises `TypeError`, because
the first components are the int 2023 and the str "2022a". -/
theorem C2_counterexample :
    pyLtList (sversion ("2023.1")) (sversion ("2022a")) = .error () := by rfl

/-- C3: the three toolchain-policy rules fire in order with exactly the
reasons recorded at aws-eb.py:581, 587 and 593, a package passing all
three is eligible, and with the table {GCC: 11.0} a recipe declaring
toolchain GCC-10.3 is skipped with reason "toolchain version too old:
GCC-10.3", which contains "too old". -/
theorem C3_confirmed :
    (∀ mt name version tcName tcVersion minv,
       (mt : List (String × String)).lookup name = some minv →
       pyLtList (sversion version) (sversion minv) = .ok true →
       toolchainPolicy mt name version tcName tcVersion
         = .ok (.skipit (("toolchain version too old: ") ++ version))) ∧
    (∀ mt name version tcName tcVersion,
       (∀ minv, (mt : List (String × String)).lookup name = some minv →
          pyLtList (sversion version) (sversion minv) = .ok false) →
       mt.lookup tcName = none →
       toolchainPolicy mt name version tcName tcVersion
         = .ok (.skipit (("toolchain not supported: ") ++ tcName))) ∧
    (∀ mt name version tcName tcVersion minv,
       (∀ mv, (mt : List (String × String)).lookup name = some mv →
          pyLtList (sversion version) (sversion mv) = .ok false) →
       mt.lookup tcName = some minv →
       pyLtList (sversion tcVersion) (sversion minv) = .ok true →
       toolchainPolicy mt name version tcName tcVersion
         = .ok (.skipit ((("toolchain version too old: ") ++ tcName) ++ (("-") ++ tcVersion)))) ∧
    (∀ mt name version tcName tcVersion minv,
       (∀ mv, (mt : List (String × String)).lookup name = some mv →
          pyLtList (sversion version) (sversion mv) = .ok false) →
       mt.lookup tcName = some minv →
       pyLtList (sversion tcVersion) (sversion minv) = .ok false →
       toolchainPolicy mt name version tcName tcVersion = .ok .ok) ∧
    (toolchainPolicy [(("GCC"), ("11.0"))] ("pkg") ("1.0") ("GCC") ("10.3")
       = .ok (.skipit ("toolchain version too old: GCC-10.3")) ∧
     pyInStr ("too old") ("toolchain version too old: GCC-10.3") = true) := by
  refine ⟨?_, ?_, ?_, ?_, by constructor <;> rfl⟩
  · intro mt name version tcName tcVersion minv hname hlt
    simp [toolchainPolicy, hname, hlt, Except.bind, bind, pure, Except.pure]
  · intro mt name version tcName tcVersion hname htc
    match h : mt.lookup name with
    | some minv =>
        have hv := hname minv h
        simp [toolchainPolicy, h, hv, htc, Except.bind, bind, pure, Except.pure]
    | none => simp [toolchainPolicy, h, htc, Except.bind, bind, pure, Except.pure]
  · intro mt name version tcName tcVersion minv hname htc hlt
    match h : mt.lookup name with
    | some mv =>
        have hv := hname mv h
        simp [toolchainPolicy, h, hv, htc, hlt, Except.bind, bind, pure, Except.pure]
    | none => simp [toolchainPolicy, h, htc, hlt, Except.bind, bind, pure, Except.pure]
  · intro mt name version tcName tcVersion minv hname htc hlt
    match h : mt.lookup name with
    | some mv =>
        have hv := hname mv h
        simp [toolchainPolicy, h, hv, htc, hlt, Except.bind, bind, pure, Except.pure]
    | none => simp [toolchainPolicy, h, htc, hlt, Except.bind, bind, pure, Except.pure]

/-- Witness for C3_confirmed: rule 3 fires on the GCC-10.3 example. -/
theorem C3_confirmed_witness :
    toolchainPolicy [(("GCC"), ("11.0"))] ("pkg") ("1.0") ("GCC") ("10.3")
      = .ok (.skipit ((("toolchain version too old: ") ++ ("GCC")) ++ (("-") ++ ("10.3")))) :=
  C3_confirmed.2.2.1 [(("GCC"), ("11.0"))] ("pkg") ("1.0") ("GCC") ("10.3") ("11.0")
    (fun mv h => by
      rw [show (List.lookup ("pkg") [(("GCC"), ("11.0"))]) = none from rfl] at h
      exact Option.noConfusion h)
    (by rfl) (by rfl)

/- ### IdleMonitor (aws-eb.py:3465-3641) -/

/-- AWSBoto._monitor_save_idle_state, reading side (aws-eb.py:3635-3640):
count of trailing consecutive idle (1) samples of the log. -/
def trailingCountLoop : List Bool → Nat
  | [] => 0
  | b :: rest => if b then trailingCountLoop rest + 1 else 0

/-- Count of trailing consecutive 1-samples of the idle log (the loop at
aws-eb.py:3636 walks the reversed line list and breaks at the first 0). -/
def trailingIdleCount (states : List Bool) : Nat :=
  trailingCountLoop states.reverse

/-- AWSBoto._monitor_save_idle_state (aws-eb.py:3628-3641): append the
sample ('1' when idle, '0' when active) to the persisted log, then return
whether the trailing idle count has reached `minIdleCnt`. -/
def monitorSaveIdleState (log : List Bool) (isSystemIdle : Bool) (minIdleCnt : Nat) :
    Bool × List Bool :=
  let newLog := log ++ [isSystemIdle]
  (decide (trailingIdleCount newLog ≥ minIdleCnt), newLog)

/-- The measurements one invocation of `_monitor_is_idle` observes over
its sampling window.  Rates are modelled as rationals. -/
structure IdleSignals where
  usersLoggedIn : Bool
  cpuPercent : ℚ
  writePerSecond : ℚ
  /-- some process not in DISK_WRITE_EXCLUSIONS has io write_bytes > 0 -/
  nonExcludedProcWrote : Bool
  bytesSentPerSecond : ℚ
  bytesRecvPerSecond : ℚ
  /-- some process not in DISK_WRITE_EXCLUSIONS has cpu_percent above
  PROCESS_CPU_THRESHOLD -/
  procCpuHigh : Bool
deriving DecidableEq, Repr

def CPU_THRESHOLD : ℚ := 20
def NET_READ_THRESHOLD : ℚ := 1000
def NET_WRITE_THRESHOLD : ℚ := 1000
def DISK_WRITE_THRESHOLD : ℚ := 100000

/-- AWSBoto._monitor_is_idle (aws-eb.py:3550-3626).  The logged-in-user
check (line 3570), the aggregate CPU check (line 3584) and the per-process
CPU check (line 3618) only print: their early returns are commented out in
the source.  Only the disk-write check (which also requires a
non-allowlisted process with positive write_bytes, lines 3590-3597) and
the network check (line 3608-3611) record an active sample; every other
run records an idle sample (line 3626). -/
def monitorIsIdle (sig : IdleSignals) (log : List Bool) (minIdleCnt : Nat) :
    Bool × List Bool :=
  if sig.writePerSecond > DISK_WRITE_THRESHOLD ∧ sig.nonExcludedProcWrote = true then
    monitorSaveIdleState log false minIdleCnt
  else if sig.bytesSentPerSecond > NET_WRITE_THRESHOLD ∨
      sig.bytesRecvPerSecond > NET_READ_THRESHOLD then
    monitorSaveIdleState log false minIdleCnt
  else
    monitorSaveIdleState log true minIdleCnt

/-- Externally visible actions of one `monitor_ec2` invocation. -/
inductive MonAction where
  | emailIdle
  | terminate
  | emailCost
deriving DecidableEq, Repr

/-- AWSBoto.monitor_ec2 (aws-eb.py:3465-3509): run the idle check; when it
confirms idleness or the instance failed its reachability check, email and
self-terminate (once) if the public IP is known; otherwise, inside the
nightly window, send the daily cost report. -/
def monitorEc2 (sig : IdleSignals) (log : List Bool) (minIdleCnt : Nat)
    (hasFailed hasPublicIp inCostWindow : Bool) : List MonAction × List Bool :=
  let r := monitorIsIdle sig log minIdleCnt
  if r.1 || hasFailed then
    ((if hasPublicIp then [MonAction.emailIdle, MonAction.terminate] else []), r.2)
  else if inCostWindow then ([MonAction.emailCost], r.2) else ([], r.2)

/- ### Theorems for claims C8 and C9 -/

/-- The recorded sample of one sampling pass, as a function of the
measured signals: active (0) exactly for the disk-write and network
conditions. -/
def recordedSample (sig : IdleSignals) : Bool :=
  !((decide (sig.writePerSecond > DISK_WRITE_THRESHOLD) && sig.nonExcludedProcWrote) ||
    (decide (sig.bytesSentPerSecond > NET_WRITE_THRESHOLD) ||
     decide (sig.bytesRecvPerSecond > NET_READ_THRESHOLD)))

/-- C8 (amended): a sampling pass appends an active (0) sample exactly
when the non-allowlisted disk-write condition or the network condition
holds; logged-in users, aggregate CPU% and per-process CPU% never make the
recorded sample active (their early returns are commented out in the
source), so in all other cases the appended sample is idle (1). -/
theorem C8_corrected (sig : IdleSignals) (log : List Bool) (minIdleCnt : Nat) :
    monitorIsIdle sig log minIdleCnt
      = monitorSaveIdleState log (recordedSample sig) minIdleCnt := by
  by_cases hA : sig.writePerSecond > DISK_WRITE_THRESHOLD <;>
  by_cases hB : sig.nonExcludedProcWrote = true <;>
  by_cases hC : sig.bytesSentPerSecond > NET_WRITE_THRESHOLD <;>
  by_cases hD : sig.bytesRecvPerSecond > NET_READ_THRESHOLD <;>
    simp [monitorIsIdle, recordedSample, hA, hB, hC, hD]

/-- C8 counterexample: a window in which a user is logged in, aggregate
CPU% is 100 (far above CPU_THRESHOLD = 20) and a per-process CPU% is above
its threshold, but with no disk or network activity, records an idle (1)
sample, not the active (0) sample the claim requires. -/
theorem C8_counterexample :
    (monitorIsIdle ⟨true, 100, 0, true, 0, 0, true⟩ [] 72).2 = [true] ∧
    (100 : ℚ) > CPU_THRESHOLD := by
  constructor
  · rfl
  · norm_num [CPU_THRESHOLD]

/-- C9: the decision value of the idle state file is the count of trailing
consecutive 1-samples of the appended log; appending an active sample
resets it to 0 (so 72 idle samples followed by one active sample yield 0
and do not confirm idleness); idleness is confirmed exactly when the
trailing count reaches the minimum (72 consecutive idle samples do confirm
it); and a confirming invocation of monitor_ec2 performs the terminate
action exactly once. -/
theorem C9_confirmed :
    (∀ (log : List Bool) (b : Bool) (minIdleCnt : Nat),
       (monitorSaveIdleState log b minIdleCnt).1
         = decide (trailingIdleCount (log ++ [b]) ≥ minIdleCnt)) ∧
    (∀ log : List Bool, trailingIdleCount (log ++ [false]) = 0) ∧
    ((monitorSaveIdleState (List.replicate 72 true) false 72).1 = false) ∧
    ((monitorSaveIdleState (List.replicate 71 true) true 72).1 = true) ∧
    (∀ (sig : IdleSignals) (log : List Bool) (hasFailed inCostWindow : Bool),
       (monitorIsIdle sig log 72).1 = true →
       ((monitorEc2 sig log 72 hasFailed true inCostWindow).1.count MonAction.terminate) = 1) := by
  refine ⟨fun log b m => rfl, ?_, by rfl, by rfl, ?_⟩
  · intro log
    simp [trailingIdleCount, trailingCountLoop, List.reverse_append]
  · intro sig log hasFailed inCostWindow hidle
    simp [monitorEc2, hidle, List.count_cons]

/-- Witness for C9_confirmed: a fully idle window on top of 71 idle
samples confirms idleness and terminates exactly once. -/
theorem C9_confirmed_witness :
    ((monitorEc2 ⟨false, 0, 0, false, 0, 0, false⟩ (List.replicate 71 true) 72
        false true false).1.count MonAction.terminate) = 1 :=
  C9_confirmed.2.2.2.2 ⟨false, 0, 0, false, 0, 0, false⟩ (List.replicate 71 true)
    false false (by rfl)

/- ### FleetController launch loop (aws-eb.py:2869-2952, 1953-1960) -/

/-- Rational value of "<ip>.<fp>" (Python float(), modelled exactly). -/
def ratOfDigits (ip fp : List Char) : ℚ :=
  (digitsToNat ip : ℚ) + (digitsToNat fp : ℚ) / (10 : ℚ) ^ fp.length

/-- All matches of the pattern \d+\.\d+ in `re.findall` order, as
(integer digits, fraction digits) slices: at each position the greedy
match is taken and scanning resumes after it
(AWSBoto._extract_last_float, aws-eb.py:1955). -/
def floatMatchesAux : Nat → List Char → List (List Char × List Char)
  | 0, _ => []
  | _, [] => []
  | fuel + 1, c :: rest =>
    if c.isDigit then
      let r1 := (c :: rest).takeWhile Char.isDigit
      let after1 := (c :: rest).dropWhile Char.isDigit
      match after1 with
      | ('.') :: rest2 =>
          let r2 := rest2.takeWhile Char.isDigit
          if r2.isEmpty then floatMatchesAux fuel after1
          else (r1, r2) :: floatMatchesAux fuel (rest2.dropWhile Char.isDigit)
      | _ => floatMatchesAux fuel after1
    else floatMatchesAux fuel rest

/-- AWSBoto._extract_last_float (aws-eb.py:1953-1960): the last
floating-point literal appearing in the string, if any. -/
def extractLastFloat (s : String) : Option ℚ :=
  ((floatMatchesAux s.data.length s.data).map fun p => ratOfDigits p.1 p.2).getLast?

/-- The error classes of `botocore ClientError` distinguished by
`_ec2_launch_instance` (aws-eb.py:2927-2947). -/
inductive LaunchErrKind where
  | spotMaxPriceTooLow (msg : String)
  | accessDenied
  | optInRequired
  | insufficientCapacity
  | otherClient
deriving DecidableEq, Repr

/-- What one `ec2.create_instances` call submits: on-demand (no market
options) or a spot request with its MaxPrice bid. -/
structure AttemptSpec where
  onDemand : Bool
  maxPrice : Option ℚ
deriving DecidableEq, Repr

inductive LaunchResult where
  | launched
  | exited (code : Nat)
  | crashed
  | fellThrough
deriving DecidableEq, Repr

/-- aws-eb.py:2883-2902: one iteration's branch selection.  On-demand when
the on-demand price is under 105% of the spot estimate or the explicit
on-demand flag is set; otherwise a one-time spot request with
MaxPrice = priceSpot * 1.05. -/
def attemptFor (priceOndemand : ℚ) (ondemandFlag : Bool) (priceSpot : ℚ) : AttemptSpec :=
  if priceOndemand < priceSpot * (105 / 100) then ⟨true, none⟩
  else if ondemandFlag then ⟨true, none⟩
  else ⟨false, some (priceSpot * (105 / 100))⟩

/-- The `for i in range(2)` retry loop of `_ec2_launch_instance`
(aws-eb.py:2881-2952).  `errOracle i` is the provisioning API's response
to attempt `i` (none = success).  On SpotMaxPriceTooLow the suggested
price is parsed out of the error text with `_extract_last_float` and
becomes the spot price estimate of the next iteration (line 2935); when no
float can be parsed the handler itself crashes formatting None
(line 2936).  Other client errors exit with a per-class status.  Falling
out of the loop without a successful create raises NameError at
line 2955 (`fellThrough`). -/
def launchLoop (priceOndemand : ℚ) (ondemandFlag : Bool)
    (errOracle : Nat → Option LaunchErrKind) :
    Nat → Nat → ℚ → List AttemptSpec × LaunchResult
  | _, 0, _ => ([], .fellThrough)
  | i, fuel + 1, priceSpot =>
    let att := attemptFor priceOndemand ondemandFlag priceSpot
    match errOracle i with
    | none => ([att], .launched)
    | some (.spotMaxPriceTooLow msg) =>
        match extractLastFloat msg with
        | some p =>
            let r := launchLoop priceOndemand ondemandFlag errOracle (i + 1) fuel p
            (att :: r.1, r.2)
        | none => ([att], .crashed)
    | some .accessDenied => ([att], .exited 1)
    | some .optInRequired => ([att], .exited 1)
    | some .insufficientCapacity => ([att], .exited 3)
    | some .otherClient => ([att], .exited 1)

/-- `_ec2_launch_instance`, from the point where prices are known. -/
def ec2LaunchInstance (priceOndemand priceSpot : ℚ) (ondemandFlag : Bool)
    (errOracle : Nat → Option LaunchErrKind) : List AttemptSpec × LaunchResult :=
  launchLoop priceOndemand ondemandFlag errOracle 0 2 priceSpot

/- ### Theorems for claim C7 -/

theorem launchLoop_length_le (pO : ℚ) (flag : Bool)
    (oracle : Nat → Option LaunchErrKind) :
    ∀ (fuel i : Nat) (pS : ℚ), (launchLoop pO flag oracle i fuel pS).1.length ≤ fuel := by
  intro fuel
  induction fuel with
  | zero => intro i pS; simp [launchLoop]
  | succ n ih =>
      intro i pS
      unfold launchLoop
      cases h : oracle i with
      | none => simp
      | some k =>
          cases k with
          | spotMaxPriceTooLow msg =>
              cases h2 : extractLastFloat msg with
              | none => simp [h2]
              | some p =>
                  simp only [h2]
                  simpa using Nat.succ_le_succ (ih (i + 1) p)
          | accessDenied => simp
          | optInRequired => simp
          | insufficientCapacity => simp
          | otherClient => simp

theorem launchTwoAttempts (pO pS : ℚ) (flag : Bool)
    (oracle : Nat → Option LaunchErrKind) (msg : String) (p : ℚ)
    (h0 : oracle 0 = some (.spotMaxPriceTooLow msg))
    (hp : extractLastFloat msg = some p) :
    (ec2LaunchInstance pO pS flag oracle).1
      = [attemptFor pO flag pS, attemptFor pO flag p] := by
  unfold ec2LaunchInstance
  unfold launchLoop
  rw [h0]
  simp only [hp]
  cases h1 : oracle 1 with
  | none => simp [launchLoop, h1]
  | some k =>
      cases k with
      | spotMaxPriceTooLow m =>
          cases h2 : extractLastFloat m with
          | none => simp [launchLoop, h1, h2]
          | some q => simp [launchLoop, h1, h2]
      | accessDenied => simp [launchLoop, h1]
      | optInRequired => simp [launchLoop, h1]
      | insufficientCapacity => simp [launchLoop, h1]
      | otherClient => simp [launchLoop, h1]

/-- C7 (amended): when the first attempt is rejected with
SpotMaxPriceTooLow, the suggested price parsed from the error text becomes
the spot price estimate of the retry, whose bid (MaxPrice) is 1.05 times
that suggested price — not the suggested price itself; the loop makes at
most 2 attempts in total. -/
theorem C7_corrected :
    (∀ (pO pS : ℚ) (flag : Bool) (oracle : Nat → Option LaunchErrKind) (msg : String) (p : ℚ),
       oracle 0 = some (.spotMaxPriceTooLow msg) →
       extractLastFloat msg = some p →
       (ec2LaunchInstance pO pS flag oracle).1
         = [attemptFor pO flag pS, attemptFor pO flag p]) ∧
    (∀ (pO pS : ℚ) (flag : Bool) (oracle : Nat → Option LaunchErrKind),
       (ec2LaunchInstance pO pS flag oracle).1.length ≤ 2) :=
  ⟨launchTwoAttempts, fun pO pS flag oracle => launchLoop_length_le pO flag oracle 2 0 pS⟩

/-- Witness for C7_corrected on the concrete rejection text of the claim:
spot estimate 0.50, rejection "0.62 is too low", retry bids
0.62 * 1.05 = 0.651. -/
theorem extractLastFloat_062 :
    extractLastFloat ("0.62 is too low") = some (62 / 100) := by
  have h1 : extractLastFloat ("0.62 is too low")
      = some (ratOfDigits [('0')] [('6'), ('2')]) := rfl
  have h2 : ratOfDigits [('0')] [('6'), ('2')] = 62 / 100 := by
    have e1 : digitsToNat [('0')] = 0 := rfl
    have e2 : digitsToNat [('6'), ('2')] = 62 := rfl
    have e3 : ([('6'), ('2')] : List Char).length = 2 := rfl
    unfold ratOfDigits
    rw [e1, e2, e3]
    norm_num
  rw [h1, h2]

theorem C7_corrected_witness :
    (ec2LaunchInstance 100 (1 / 2) false
        (fun i => if i = 0 then some (.spotMaxPriceTooLow ("0.62 is too low")) else none)).1
      = [attemptFor 100 false (1 / 2), attemptFor 100 false (62 / 100)] :=
  C7_corrected.1 100 (1 / 2) false
    (fun i => if i = 0 then some (.spotMaxPriceTooLow ("0.62 is too low")) else none)
    ("0.62 is too low") (62 / 100) (by rfl) extractLastFloat_062

/-- C7 counterexample: with on-demand price 100 and spot estimate 0.50,
a first rejection whose text suggests 0.62 leads to a retry whose bid is
0.651 (= 0.62 * 1.05), not 0.62 as the claim states. -/
theorem C7_counterexample :
    (ec2LaunchInstance 100 (1 / 2) false
        (fun i => if i = 0 then some (.spotMaxPriceTooLow ("0.62 is too low")) else none)).1
      = [⟨false, some (21 / 40)⟩, ⟨false, some (651 / 1000)⟩] ∧
    ((651 : ℚ) / 1000) ≠ 62 / 100 := by
  constructor
  · have hmain := launchTwoAttempts 100 (1 / 2) false
      (fun i => if i = 0 then some (.spotMaxPriceTooLow ("0.62 is too low")) else none)
      ("0.62 is too low") (62 / 100) (by rfl) extractLastFloat_062
    rw [hmain]
    have a1 : attemptFor 100 false (1 / 2) = ⟨false, some (21 / 40)⟩ := by
      unfold attemptFor
      rw [if_neg (by norm_num), if_neg (by simp)]
      norm_num
    have a2 : attemptFor 100 false (62 / 100) = ⟨false, some (651 / 1000)⟩ := by
      unfold attemptFor
      rw [if_neg (by norm_num), if_neg (by simp)]
      norm_num
    rw [a1, a2]
  · norm_num

/- ### The status store of Builder.build_all_eb, with Python dict
reference semantics (aws-eb.py:526-765) -/

/-- One BuildStatusRecord (the dict shape of aws-eb.py:543-551). -/
structure StatusRecord where
  status : String
  reason : String
  returncode : Int
  errorcount : Nat
  trydate : String
  buildtime : Int
  modules : Option (List (String × String))
deriving DecidableEq, Repr

/-- The fresh `statdict_template` contents (aws-eb.py:543-551). -/
def statdictTemplate (trydate : String) : StatusRecord :=
  ⟨("unknown"), ("n/a"), -1, 0, trydate, 0, none⟩

/-- The in-memory `statdict` with the single shared `statdict_template`
object made explicit: `own` holds keys bound to their own dict (records
parsed back from S3), `aliased` holds every key bound by reference to the
one template object, whose current contents are `tmpl`.  Mutating the
record of an aliased key mutates `tmpl`, hence every aliased key at
once — exactly the Python behaviour of `statdict[k] = statdict_template`
followed by `statdict[k][field] = v`. -/
structure PyStore where
  tmpl : StatusRecord
  own : List (String × StatusRecord)
  aliased : List String
deriving DecidableEq, Repr

def PyStore.get (st : PyStore) (k : String) : Option StatusRecord :=
  if st.aliased.contains k then some st.tmpl else st.own.lookup k

/-- Python `k in statdict.keys()`. -/
def PyStore.hasKey (st : PyStore) (k : String) : Bool :=
  st.aliased.contains k || (st.own.lookup k).isSome

/-- Field mutation of the record a key is bound to, keeping the key in
place (Python `statdict[k][field] = v`). -/
def ownModify : List (String × StatusRecord) → String → (StatusRecord → StatusRecord) →
    List (String × StatusRecord)
  | [], _, _ => []
  | (k0, v0) :: rest, k, f =>
      if k0 = k then (k0, f v0) :: rest else (k0, v0) :: ownModify rest k f

def PyStore.modify (st : PyStore) (k : String) (f : StatusRecord → StatusRecord) : PyStore :=
  if st.aliased.contains k then { st with tmpl := f st.tmpl }
  else { st with own := ownModify st.own k f }

/-- `if k not in statdict: statdict[k] = statdict_template`
(aws-eb.py:563-564 and 694-695): binds the key by reference to the shared
template object. -/
def PyStore.bindTemplateIfAbsent (st : PyStore) (k : String) : PyStore :=
  if st.hasKey k then st else { st with aliased := st.aliased ++ [k] }

/- ### The per-recipe pass of Builder.build_all_eb -/

/-- The inputs of one iteration of the recipe loop: the parsed easyconfig
metadata (`_read_easyconfig`, line 576), the command-line options, and
oracles for every external call (`eb --missing-modules` once before the
dependency loop and once after a target failure; the exit code, wall time
and timestamp of each `eb` run; whether `_tar_eb_software` produced new
tarballs). -/
structure RecipeInput where
  ebfile : String
  ebpath : String
  checkskipped : Bool
  trydate : String
  name : String
  version : String
  tcName : String
  tcVersion : String
  cls : String
  includes : List String
  excludes : List String
  /-- `_eb_missing_modules(ebpath)` in insertion order; the final entry is
  the target recipe itself.  The probe-failure sentinel {error: 1} is
  modelled as the pair ("error", "1"). -/
  themissing : List (String × String)
  /-- the re-probed still-missing snapshot stored after a target failure -/
  themissing2 : List (String × String)
  retOf : String → Int
  retTarget : Int
  bt : String → Int
  btTarget : Int
  trydateOf : String → String
  newTars : Bool

/-- One recorded invocation of the external `eb` toolchain. -/
inductive CallKind where
  | dep (ebf : String)
  | target (ebpath : String)
deriving DecidableEq, Repr

/-- How the pass over one recipe ended. -/
inductive Outcome where
  | ignored
  | skippedPolicy (reason : String)
  | alreadyDone
  | depFailed (ebf : String)
  | targetFailed
  | built
  | abandoned
deriving DecidableEq, Repr

structure PassResult where
  mem : PyStore
  persisted : PyStore
  calls : List CallKind
  outcome : Outcome
  ebcntD : Nat
  ebskippedD : Nat
  bldcntD : Nat
  errcntD : Nat
deriving DecidableEq, Repr

/-- aws-eb.py:596-610: include/exclude module-class filters (include wins
when both are configured); the recorded skip reason, if any. -/
def classFilterSkip (includes excludes : List String) (cls : String) : Option String :=
  if includes ≠ [] then
    if cls ∉ includes then some ("module class not included via --include option") else none
  else if excludes ≠ [] then
    if cls ∈ excludes then some ("module class excluded via --exclude option") else none
  else none

/-- Builder._errors_in_missing (aws-eb.py:839-847): the missing-list
entries that already have an error record in the store. -/
def errorsInMissing (themissing : List (String × String)) (st : PyStore) : List String :=
  (themissing.map Prod.snd).filter fun ebf =>
    match st.get ebf with
    | some r => r.status == ("error")
    | none => false

/-- One iteration of the dependency min-toolchain check
(aws-eb.py:636-644): split "name/version" (a bare name gets version
"0.0"); tracked names with a version below the table minimum set doskip.
Unpacking more than two fields raises ValueError and the comparison can
raise TypeError (both `Except.error`). -/
def depTooOld (minTc : List (String × String)) (miss : String) : Except Unit Bool := do
  let nv ← (match pySplit miss ('/') with
            | [n] => Except.ok (n, ("0.0"))
            | [n, v] => Except.ok (n, v)
            | _ => Except.error ())
  match minTc.lookup nv.1 with
  | some minv => pyLtList (sversion nv.2) (sversion minv)
  | none => pure false

/-- aws-eb.py:635-644: doskip is the OR over all missing modules (the
loop does not break early). -/
def depToolchainDoskip (minTc : List (String × String)) :
    List (String × String) → Except Unit Bool
  | [] => .ok false
  | (k, _) :: rest => do
      let b ← depTooOld minTc k
      let r ← depToolchainDoskip minTc rest
      pure (b || r)

/-- One dependency build (aws-eb.py:669-717): bind the shared template
for a previously unknown dependency, record returncode/trydate/buildtime,
then on a non-zero exit record error and bump errorcount, else record
success; the whole statdict is persisted (s3_put_json, line 717) after
each dependency.  Returns the store and whether the build failed. -/
def depStep (inp : RecipeInput) (st : PyStore) (ebf : String) : PyStore × Bool :=
  let st1 := st.bindTemplateIfAbsent ebf
  let st2 := st1.modify ebf fun r =>
    { r with returncode := inp.retOf ebf, trydate := inp.trydateOf ebf, buildtime := inp.bt ebf }
  if inp.retOf ebf ≠ 0 then
    (st2.modify ebf fun r =>
      { r with status := ("error"), reason := ("n/a"), errorcount := r.errorcount + 1 }, true)
  else
    (st2.modify ebf fun r =>
      { r with status := ("success"), reason := ("easyconfig built successfully"),
               modules := none }, false)

structure DepsResult where
  store : PyStore
  calls : List CallKind
  failed : Option String
  errD : Nat
  bldD : Nat
deriving Repr

/-- The dependency loop over all but the last missing entry
(aws-eb.py:669-721) with its fail-fast break after the first failure. -/
def runDeps (inp : RecipeInput) : List String → PyStore → DepsResult
  | [], st => ⟨st, [], none, 0, 0⟩
  | ebf :: rest, st =>
    let r := depStep inp st ebf
    if r.2 then ⟨r.1, [CallKind.dep ebf], some ebf, 1, 0⟩
    else
      let rr := runDeps inp rest r.1
      ⟨rr.store, CallKind.dep ebf :: rr.calls, rr.failed, rr.errD, rr.bldD + 1⟩

structure TargetResult where
  store : PyStore
  outcome : Outcome
  errD : Nat
  bldD : Nat
deriving Repr

/-- Building the target recipe itself (aws-eb.py:723-763): record
returncode and buildtime (no trydate update), then on failure record
error with the re-probed missing snapshot (errorcount unchanged), else
record success; bldcnt only moves when new tarballs were produced
(line 758). -/
def targetPhase (inp : RecipeInput) (st : PyStore) : TargetResult :=
  let st1 := st.modify inp.ebfile fun r =>
    { r with returncode := inp.retTarget, buildtime := inp.btTarget }
  if inp.retTarget ≠ 0 then
    ⟨st1.modify inp.ebfile fun r =>
       { r with status := ("error"), reason := ("n/a"), modules := some inp.themissing2 },
     .targetFailed, 1, 0⟩
  else
    ⟨st1.modify inp.ebfile fun r =>
       { r with status := ("success"), reason := ("easyconfig built successfully"),
                modules := none },
     .built, 0, if inp.newTars then 1 else 0⟩

/-- The gate at aws-eb.py:554-558: a recipe with an existing record is
ignored unless the record is "skipped" and --check-skipped is set. -/
def gateIgnores (s0 : List (String × StatusRecord)) (ebfile : String)
    (checkskipped : Bool) : Bool :=
  match s0.lookup ebfile with
  | some r => r.status != ("skipped") || !checkskipped
  | none => false

/-- One pass of the per-recipe body of `Builder.build_all_eb`
(aws-eb.py:541-765) over a single recipe, starting from the store
contents `s0` fetched from S3.  External effects with no bearing on the
store or the toolchain invocations (the failed-peer sweep at
lines 566-573, OS package installation, the rclone download/upload and
tarring) are not represented; every `eb` invocation is recorded in
`calls`.  A TypeError/ValueError escaping from the version comparisons is
caught by the outer handler at line 772, which abandons the recipe
(`Outcome.abandoned`) with nothing persisted since the pass started;
`persisted` is the store contents of the last s3_put_json, or `s0` when
none happened. -/
def recipePass (minTc : List (String × String)) (inp : RecipeInput)
    (s0 : List (String × StatusRecord)) : PassResult :=
  let st0 : PyStore := ⟨statdictTemplate inp.trydate, s0, []⟩
  if gateIgnores s0 inp.ebfile inp.checkskipped then
    ⟨st0, st0, [], .ignored, 1, 1, 0, 0⟩
  else
    let st := st0.bindTemplateIfAbsent inp.ebfile
    match toolchainPolicy minTc inp.name inp.version inp.tcName inp.tcVersion with
    | .error _ => ⟨st, st0, [], .abandoned, 1, 1, 0, 0⟩
    | .ok (.skipit reason) =>
        let st1 := st.modify inp.ebfile fun r => { r with status := ("skipped"), reason := reason }
        ⟨st1, st1, [], .skippedPolicy reason, 1, 1, 0, 0⟩
    | .ok .ok =>
      match classFilterSkip inp.includes inp.excludes inp.cls with
      | some reason =>
          let st1 := st.modify inp.ebfile fun r => { r with status := ("skipped"), reason := reason }
          ⟨st1, st1, [], .skippedPolicy reason, 1, 1, 0, 0⟩
      | none =>
        if inp.themissing.isEmpty then
          let st1 := st.modify inp.ebfile fun r =>
            { r with status := ("success"), reason := ("easyconfig built successfully") }
          ⟨st1, st1, [], .alreadyDone, 1, 1, 0, 0⟩
        else if !(errorsInMissing inp.themissing st).isEmpty then
          let st1 := st.modify inp.ebfile fun r =>
            { r with status := ("skipped"), reason := ("dependencies have errors") }
          ⟨st1, st1, [], .skippedPolicy ("dependencies have errors"), 1, 1, 0, 0⟩
        else
          match depToolchainDoskip minTc inp.themissing with
          | .error _ => ⟨st, st0, [], .abandoned, 1, 1, 0, 0⟩
          | .ok true =>
              let st1 := st.modify inp.ebfile fun r =>
                { r with status := ("skipped"),
                         reason := ("dependency requires too old toolchain") }
              ⟨st1, st1, [], .skippedPolicy ("dependency requires too old toolchain"), 1, 1, 0, 0⟩
          | .ok false =>
              let deps := (inp.themissing.map Prod.snd).dropLast
              let dr := runDeps inp deps st
              match dr.failed with
              | some ebf => ⟨dr.store, dr.store, dr.calls, .depFailed ebf, 1, 0, dr.bldD, dr.errD⟩
              | none =>
                  let tp := targetPhase inp dr.store
                  ⟨tp.store, tp.store, dr.calls ++ [CallKind.target inp.ebpath], tp.outcome,
                    1, 0, dr.bldD + tp.bldD, dr.errD + tp.errD⟩

/- ### Store lemmas -/

theorem ownModify_lookup_self (l : List (String × StatusRecord)) (k : String)
    (f : StatusRecord → StatusRecord) :
    (ownModify l k f).lookup k = (l.lookup k).map f := by
  induction l with
  | nil => rfl
  | cons hd tl ih =>
      obtain ⟨k0, v0⟩ := hd
      by_cases h : k0 = k
      · subst h
        simp [ownModify, List.lookup]
      · have hb : (k == k0) = false := by
          simp [BEq.comm]
          exact fun hh => h hh.symm
        simp [ownModify, List.lookup, h, hb, ih]

theorem ownModify_lookup_other (l : List (String × StatusRecord)) (k k2 : String)
    (f : StatusRecord → StatusRecord) (hne : k2 ≠ k) :
    (ownModify l k f).lookup k2 = l.lookup k2 := by
  induction l with
  | nil => rfl
  | cons hd tl ih =>
      obtain ⟨k0, v0⟩ := hd
      by_cases h : k0 = k
      · subst h
        have hb : (k2 == k0) = false := by simpa using hne
        simp [ownModify, List.lookup, hb]
      · simp only [ownModify, if_neg h]
        by_cases h2 : k2 = k0
        · subst h2
          simp [List.lookup]
        · have hb : (k2 == k0) = false := by simpa using h2
          simp [List.lookup, hb, ih]

theorem PyStore.hasKey_iff_get (st : PyStore) (k : String) :
    st.hasKey k = (st.get k).isSome := by
  by_cases hm : k ∈ st.aliased <;> simp [PyStore.hasKey, PyStore.get, hm]

theorem PyStore.get_modify_self (st : PyStore) (k : String) (f : StatusRecord → StatusRecord) :
    (st.modify k f).get k = (st.get k).map f := by
  by_cases hm : k ∈ st.aliased <;>
    simp [PyStore.modify, PyStore.get, hm, ownModify_lookup_self]

theorem PyStore.get_bind_self (st : PyStore) (k : String) :
    (st.bindTemplateIfAbsent k).get k = some ((st.get k).getD st.tmpl) := by
  by_cases hk : st.hasKey k = true
  · have hs : (st.get k).isSome = true := by rw [← PyStore.hasKey_iff_get]; exact hk
    obtain ⟨r, hr⟩ := Option.isSome_iff_exists.mp hs
    simp [PyStore.bindTemplateIfAbsent, hk, hr]
  · have hk2 : st.hasKey k = false := by simpa using hk
    have hg : st.get k = none := by
      rw [PyStore.hasKey_iff_get] at hk2
      cases hgk : st.get k with
      | none => rfl
      | some r => rw [hgk] at hk2; simp at hk2
    have hm : ¬ k ∈ st.aliased := by
      intro hmem
      rw [show st.hasKey k = (st.aliased.contains k || (st.own.lookup k).isSome) from rfl] at hk2
      simp [hmem] at hk2
    have hlk : List.lookup k st.own = none := by
      have hgg := hg
      unfold PyStore.get at hgg
      rwa [if_neg (by simpa using hm)] at hgg
    simp [PyStore.bindTemplateIfAbsent, hk2, PyStore.get, hg, hm, hlk]

theorem PyStore.get_bind_other (st : PyStore) (k k2 : String) (hne : k2 ≠ k) :
    (st.bindTemplateIfAbsent k).get k2 = st.get k2 := by
  by_cases hk : st.hasKey k = true
  · simp [PyStore.bindTemplateIfAbsent, hk]
  · have hk2 : st.hasKey k = false := by simpa using hk
    by_cases hm : k2 ∈ st.aliased <;>
      simp [PyStore.bindTemplateIfAbsent, hk2, PyStore.get, hm, hne]

/- ### Theorems for claim C1 -/

/-- C1: when a StatusStore record exists whose status is not "skipped", or
is "skipped" while --check-skipped is unset, the pass over that recipe is
a no-op counted as skipped: no `eb` invocation happens, nothing new is
persisted, and every stored record (in particular a prior "success"
record) is left exactly as fetched — re-running the planner on a built
recipe is idempotent. -/
theorem C1_confirmed (minTc : List (String × String)) (inp : RecipeInput)
    (s0 : List (String × StatusRecord)) (r : StatusRecord)
    (hrec : s0.lookup inp.ebfile = some r)
    (hcond : r.status ≠ ("skipped") ∨ inp.checkskipped = false) :
    (recipePass minTc inp s0).calls = [] ∧
    (recipePass minTc inp s0).outcome = .ignored ∧
    (recipePass minTc inp s0).ebskippedD = 1 ∧
    (∀ k, (recipePass minTc inp s0).persisted.get k = s0.lookup k) ∧
    (∀ k, (recipePass minTc inp s0).mem.get k = s0.lookup k) := by
  have hg : gateIgnores s0 inp.ebfile inp.checkskipped = true := by
    unfold gateIgnores
    rw [hrec]
    rcases hcond with h | h
    · simp [bne_iff_ne, h]
    · simp [h]
  unfold recipePass
  rw [hg]
  refine ⟨rfl, rfl, rfl, ?_, ?_⟩ <;>
    · intro k
      simp [PyStore.get]

/-- Witness input: a recipe whose record says success. -/
def sampleRecordSuccess : StatusRecord :=
  ⟨("success"), ("easyconfig built successfully"), 0, 0, ("t0"), 10, none⟩

/-- Witness input: fully benign recipe metadata. -/
def sampleInput : RecipeInput :=
  { ebfile := ("pkg-1.0.eb"), ebpath := ("/eb/pkg-1.0.eb"), checkskipped := false,
    trydate := ("t1"), name := ("pkg"), version := ("1.0"),
    tcName := ("GCC"), tcVersion := ("12.0"), cls := ("bio"),
    includes := [], excludes := [],
    themissing := [], themissing2 := [],
    retOf := fun _ => 0, retTarget := 0,
    bt := fun _ => 0, btTarget := 0,
    trydateOf := fun _ => ("t1"), newTars := true }

/-- Witness for C1_confirmed: a prior success record is ignored and kept. -/
theorem C1_confirmed_witness :
    (recipePass [] sampleInput [(("pkg-1.0.eb"), sampleRecordSuccess)]).calls = [] ∧
    (recipePass [] sampleInput [(("pkg-1.0.eb"), sampleRecordSuccess)]).outcome = .ignored ∧
    (recipePass [] sampleInput [(("pkg-1.0.eb"), sampleRecordSuccess)]).persisted.get
        ("pkg-1.0.eb") = some sampleRecordSuccess := by
  have h := C1_confirmed [] sampleInput [(("pkg-1.0.eb"), sampleRecordSuccess)]
    sampleRecordSuccess (by rfl) (Or.inr rfl)
  exact ⟨h.1, h.2.1, by rw [h.2.2.2.1 ("pkg-1.0.eb")]; rfl⟩

/- ### Theorems for claim C5 -/

/-- C5 (amended): a recipe that passes the gate, the toolchain policy and
the class filters and whose missing-dependency query comes back empty
terminates with status "success" and reason "easyconfig built
successfully" (the log line, not the record, says "already installed"),
with no `eb` invocation. -/
theorem C5_corrected (minTc : List (String × String)) (inp : RecipeInput)
    (s0 : List (String × StatusRecord))
    (hgate : gateIgnores s0 inp.ebfile inp.checkskipped = false)
    (hpol : toolchainPolicy minTc inp.name inp.version inp.tcName inp.tcVersion
      = Except.ok Policy.ok)
    (hfil : classFilterSkip inp.includes inp.excludes inp.cls = none)
    (hmiss : inp.themissing = []) :
    (recipePass minTc inp s0).calls = [] ∧
    (recipePass minTc inp s0).outcome = Outcome.alreadyDone ∧
    ∃ r, (recipePass minTc inp s0).persisted.get inp.ebfile = some r ∧
      r.status = ("success") ∧ r.reason = ("easyconfig built successfully") := by
  simp only [recipePass, hgate, Bool.false_eq_true, if_false, hpol, hfil, hmiss,
    List.isEmpty_nil, if_true, true_and, and_true]
  rw [PyStore.get_modify_self, PyStore.get_bind_self]
  exact ⟨_, rfl, rfl, rfl⟩

/-- Witness for C5_corrected at a concrete fully-eligible recipe. -/
theorem C5_corrected_witness :
    (recipePass [(("GCC"), ("11.0"))] sampleInput []).calls = [] ∧
    (recipePass [(("GCC"), ("11.0"))] sampleInput []).outcome = Outcome.alreadyDone ∧
    ∃ r, (recipePass [(("GCC"), ("11.0"))] sampleInput []).persisted.get
        sampleInput.ebfile = some r ∧
      r.status = ("success") ∧ r.reason = ("easyconfig built successfully") :=
  C5_corrected [(("GCC"), ("11.0"))] sampleInput [] (by rfl) (by rfl) (by rfl) (by rfl)

/-- C5 counterexample: at a concrete fully-eligible recipe with an empty
missing list, the persisted record's reason is "easyconfig built
successfully", not "already installed" as the claim states. -/
theorem C5_counterexample :
    (recipePass [(("GCC"), ("11.0"))] sampleInput []).persisted.get ("pkg-1.0.eb")
      = some ⟨("success"), ("easyconfig built successfully"), -1, 0, ("t1"), 0, none⟩ ∧
    (recipePass [(("GCC"), ("11.0"))] sampleInput []).calls = [] ∧
    ("easyconfig built successfully") ≠ ("already installed") :=
  ⟨rfl, rfl, by decide⟩

/- ### Theorem for claim C6 -/

/-- A recipe with one missing dependency (plus itself) whose dependency
build fails. -/
def depFailInput : RecipeInput :=
  { sampleInput with
    themissing := [(("depmod"), ("dep-1.0.eb")), (("pkgmod"), ("pkg-1.0.eb"))],
    retOf := fun _ => 1 }

/-- C6 (code bug): fail-fast itself holds — after the failed dependency no
further dependency is built and the target is never invoked, and the
dependency's error record is persisted before the chain is abandoned —
but the target's stored record is NOT left untouched: because
`statdict[ebfile] = statdict_template` (line 564) and
`statdict[ebf] = statdict_template` (line 695) bind both keys to the same
dict object, the dependency's error mutations are persisted under the
target's key as well, so the target recipe "pkg-1.0.eb" ends this run
with a full error record (status "error", returncode 1, errorcount 1)
although it was never built. -/
theorem C6_code_bug :
    (recipePass [(("GCC"), ("11.0"))] depFailInput []).calls
      = [CallKind.dep ("dep-1.0.eb")] ∧
    (recipePass [(("GCC"), ("11.0"))] depFailInput []).outcome
      = Outcome.depFailed ("dep-1.0.eb") ∧
    (recipePass [(("GCC"), ("11.0"))] depFailInput []).persisted.get ("dep-1.0.eb")
      = some ⟨("error"), ("n/a"), 1, 1, ("t1"), 0, none⟩ ∧
    (recipePass [(("GCC"), ("11.0"))] depFailInput []).persisted.get ("pkg-1.0.eb")
      = some ⟨("error"), ("n/a"), 1, 1, ("t1"), 0, none⟩ :=
  ⟨rfl, rfl, rfl, rfl⟩

/- ### Theorems for claim C10 -/

/-- errorcount ordering between two store states: every key present in
the first is present in the second with an errorcount at least as
large. -/
def ecLe (a b : PyStore) : Prop :=
  ∀ k r, a.get k = some r → ∃ r2, b.get k = some r2 ∧ r.errorcount ≤ r2.errorcount

theorem ecLe_refl (a : PyStore) : ecLe a a :=
  fun _ r hr => ⟨r, hr, le_refl _⟩

theorem ecLe_trans {a b c : PyStore} (h1 : ecLe a b) (h2 : ecLe b c) : ecLe a c := by
  intro k r hr
  obtain ⟨r2, hr2, hle2⟩ := h1 k r hr
  obtain ⟨r3, hr3, hle3⟩ := h2 k r2 hr2
  exact ⟨r3, hr3, le_trans hle2 hle3⟩

theorem get_modify_cases (st : PyStore) (k : String) (f : StatusRecord → StatusRecord)
    (k2 : String) :
    (st.modify k f).get k2 = st.get k2 ∨ (st.modify k f).get k2 = (st.get k2).map f := by
  by_cases hm : k ∈ st.aliased
  · by_cases hm2 : k2 ∈ st.aliased
    · right; simp [PyStore.modify, PyStore.get, hm, hm2]
    · left; simp [PyStore.modify, PyStore.get, hm, hm2]
  · by_cases hm2 : k2 ∈ st.aliased
    · left; simp [PyStore.modify, PyStore.get, hm, hm2]
    · by_cases hk : k2 = k
      · subst hk
        right; simp [PyStore.modify, PyStore.get, hm, hm2, ownModify_lookup_self]
      · left; simp [PyStore.modify, PyStore.get, hm, hm2, ownModify_lookup_other _ _ _ _ hk]

theorem ecLe_modify (st : PyStore) (k : String) (f : StatusRecord → StatusRecord)
    (hf : ∀ r, r.errorcount ≤ (f r).errorcount) : ecLe st (st.modify k f) := by
  intro k2 r hr
  rcases get_modify_cases st k f k2 with h | h
  · exact ⟨r, by rw [h, hr], le_refl _⟩
  · exact ⟨f r, by rw [h, hr]; rfl, hf r⟩

theorem get_bind_cases (st : PyStore) (k k2 : String) :
    (st.bindTemplateIfAbsent k).get k2 = st.get k2 ∨ st.get k2 = none := by
  by_cases hk : k2 = k
  · subst hk
    by_cases hs : st.hasKey k2 = true
    · left; simp [PyStore.bindTemplateIfAbsent, hs]
    · right
      have hk2 : st.hasKey k2 = false := by simpa using hs
      rw [PyStore.hasKey_iff_get] at hk2
      cases hg : st.get k2 with
      | none => rfl
      | some r => rw [hg] at hk2; simp at hk2
  · left; exact PyStore.get_bind_other st k k2 hk

theorem ecLe_bind (st : PyStore) (k : String) : ecLe st (st.bindTemplateIfAbsent k) := by
  intro k2 r hr
  rcases get_bind_cases st k k2 with h | h
  · exact ⟨r, by rw [h, hr], le_refl _⟩
  · rw [h] at hr; exact absurd hr (by simp)

theorem ecLe_depStep (inp : RecipeInput) (st : PyStore) (ebf : String) :
    ecLe st (depStep inp st ebf).1 := by
  unfold depStep
  by_cases hret : inp.retOf ebf ≠ 0
  · simp only [if_pos hret]
    refine ecLe_trans (ecLe_trans (ecLe_bind st ebf) (ecLe_modify _ _ _ ?_))
      (ecLe_modify _ _ _ ?_)
    · exact fun r => le_refl _
    · exact fun r => Nat.le_succ _
  · simp only [if_neg hret]
    refine ecLe_trans (ecLe_trans (ecLe_bind st ebf) (ecLe_modify _ _ _ ?_))
      (ecLe_modify _ _ _ ?_)
    · exact fun r => le_refl _
    · exact fun r => le_refl _

theorem ecLe_runDeps (inp : RecipeInput) :
    ∀ (deps : List String) (st : PyStore), ecLe st (runDeps inp deps st).store := by
  intro deps
  induction deps with
  | nil => intro st; exact ecLe_refl st
  | cons ebf rest ih =>
      intro st
      simp only [runDeps]
      by_cases hf : (depStep inp st ebf).2 = true
      · rw [if_pos hf]
        exact ecLe_depStep inp st ebf
      · rw [if_neg hf]
        exact ecLe_trans (ecLe_depStep inp st ebf) (ih _)

theorem ecLe_targetPhase (inp : RecipeInput) (st : PyStore) :
    ecLe st (targetPhase inp st).store := by
  unfold targetPhase
  by_cases hret : inp.retTarget ≠ 0
  · simp only [if_pos hret]
    refine ecLe_trans (ecLe_modify _ _ _ ?_) (ecLe_modify _ _ _ ?_) <;>
      exact fun r => le_refl _
  · simp only [if_neg hret]
    refine ecLe_trans (ecLe_modify _ _ _ ?_) (ecLe_modify _ _ _ ?_) <;>
      exact fun r => le_refl _

theorem recipePass_ecLe (minTc : List (String × String)) (inp : RecipeInput)
    (s0 : List (String × StatusRecord)) :
    ecLe ⟨statdictTemplate inp.trydate, s0, []⟩ (recipePass minTc inp s0).mem := by
  simp only [recipePass]
  repeat' split
  all_goals
    first
      | exact ecLe_refl _
      | exact ecLe_bind _ _
      | (refine ecLe_trans (ecLe_bind _ _) (ecLe_modify _ _ _ ?_)
         exact fun r => le_refl _)
      | exact ecLe_trans (ecLe_bind _ _) (ecLe_runDeps inp _ _)
      | exact ecLe_trans (ecLe_trans (ecLe_bind _ _) (ecLe_runDeps inp _ _))
          (ecLe_targetPhase inp _)

/-- C10 (amended): a failed dependency attempt increments the persisted
record's errorcount by exactly one (and marks it error); errorcount never
decreases across a pass for any pre-existing record; but a failed attempt
on the target recipe itself does not touch errorcount (no increment at
aws-eb.py:737-749). -/
theorem C10_corrected :
    (∀ (inp : RecipeInput) (st : PyStore) (ebf : String) (r0 : StatusRecord),
       (st.bindTemplateIfAbsent ebf).get ebf = some r0 →
       inp.retOf ebf ≠ 0 →
       (depStep inp st ebf).1.get ebf
         = some { r0 with
                  returncode := inp.retOf ebf,
                  trydate := inp.trydateOf ebf,
                  buildtime := inp.bt ebf,
                  status := ("error"),
                  reason := ("n/a"),
                  errorcount := r0.errorcount + 1 }) ∧
    (∀ (minTc : List (String × String)) (inp : RecipeInput)
       (s0 : List (String × StatusRecord)) (k : String) (r r2 : StatusRecord),
       s0.lookup k = some r →
       (recipePass minTc inp s0).mem.get k = some r2 →
       r.errorcount ≤ r2.errorcount) := by
  constructor
  · intro inp st ebf r0 h0 hret
    unfold depStep
    simp only [if_pos hret]
    rw [PyStore.get_modify_self, PyStore.get_modify_self, h0]
    rfl
  · intro minTc inp s0 k r r2 hr hr2
    have hst0 : (⟨statdictTemplate inp.trydate, s0, []⟩ : PyStore).get k = some r := by
      simp [PyStore.get, hr]
    obtain ⟨r3, hr3, hle⟩ := recipePass_ecLe minTc inp s0 k r hst0
    rw [hr2] at hr3
    obtain rfl : r2 = r3 := by injection hr3
    exact hle

/-- Witness for C10_corrected: the failed dependency of `depFailInput`
gets errorcount 1 (template had 0), and a pre-existing success record
keeps its errorcount across an ignored pass. -/
theorem C10_corrected_witness :
    ((depStep depFailInput ⟨statdictTemplate ("t1"), [], []⟩ ("dep-1.0.eb")).1.get
        ("dep-1.0.eb")
      = some { (statdictTemplate ("t1")) with
               returncode := 1,
               trydate := ("t1"),
               buildtime := 0,
               status := ("error"),
               reason := ("n/a"),
               errorcount := (statdictTemplate ("t1")).errorcount + 1 }) ∧
    sampleRecordSuccess.errorcount ≤ sampleRecordSuccess.errorcount :=
  ⟨C10_corrected.1 depFailInput ⟨statdictTemplate ("t1"), [], []⟩ ("dep-1.0.eb")
      (statdictTemplate ("t1")) (by rfl) (by decide),
   C10_corrected.2 [] sampleInput [(("pkg-1.0.eb"), sampleRecordSuccess)] ("pkg-1.0.eb")
      sampleRecordSuccess sampleRecordSuccess (by rfl) (by rfl)⟩

/-- A recipe whose missing list contains only the target itself and whose
target build fails. -/
def targetFailInput : RecipeInput :=
  { sampleInput with themissing := [(("pkgmod"), ("pkg-1.0.eb"))], retTarget := 1 }

/-- C10 counterexample: a failed attempt on the target recipe itself
leaves errorcount at 0 — the persisted error record after the failed
target build has errorcount 0, not one greater than before. -/
theorem C10_counterexample :
    (recipePass [(("GCC"), ("11.0"))] targetFailInput []).calls
      = [CallKind.target ("/eb/pkg-1.0.eb")] ∧
    (recipePass [(("GCC"), ("11.0"))] targetFailInput []).persisted.get ("pkg-1.0.eb")
      = some ⟨("error"), ("n/a"), 1, 0, ("t1"), 0, some []⟩ ∧
    (0 : Nat) ≠ 0 + 1 :=
  ⟨rfl, rfl, by decide⟩

/- ### RecipeCatalog: Builder._get_latest_easyconfig (aws-eb.py:1001-1036) -/

/-- A parsed PEP 440 version, as `packaging.version.parse` produces for
the strings this code feeds it (release digits, pre-releases, post- and
dev-releases; epochs and local segments cannot occur in `\w`-words and
are omitted).  The release list is normalised by stripping trailing
zeros, pre-release letters are normalised to ranks a=0, b=1,
c/rc/pre/preview=2, and a missing pre/post/dev number defaults to 0 — so
structural equality coincides with PEP 440 version equality. -/
structure PVersion where
  release : List Nat
  pre : Option (Nat × Nat)
  post : Option Nat
  dev : Option Nat
deriving DecidableEq, Repr

/-- `packaging.version.parse("0")`. -/
def pzero : PVersion := ⟨[], none, none, none⟩

def stripZeros (l : List Nat) : List Nat :=
  (l.reverse.dropWhile (fun n => n = 0)).reverse

def isSepChar (c : Char) : Bool := c = '-' || c = '_' || c = '.'

/-- `N(.N)*` release groups after the first number. -/
def parseDotGroups : Nat → List Char → List Nat × List Char
  | 0, cs => ([], cs)
  | fuel + 1, cs =>
    match cs with
    | ('.') :: rest =>
        let d := rest.takeWhile Char.isDigit
        if d.isEmpty then ([], cs)
        else
          let r := parseDotGroups fuel (rest.dropWhile Char.isDigit)
          (digitsToNat d :: r.1, r.2)
    | _ => ([], cs)

/-- The pre-release letter, longest alternative first
(alpha/beta/preview/pre/rc/a/b/c), with its PEP 440 rank. -/
def matchPreTag (cs : List Char) : Option (Nat × List Char) :=
  if startsWithSeq (("alpha").data) cs then some (0, cs.drop 5)
  else if startsWithSeq (("beta").data) cs then some (1, cs.drop 4)
  else if startsWithSeq (("preview").data) cs then some (2, cs.drop 7)
  else if startsWithSeq (("pre").data) cs then some (2, cs.drop 3)
  else if startsWithSeq (("rc").data) cs then some (2, cs.drop 2)
  else if startsWithSeq (("a").data) cs then some (0, cs.drop 1)
  else if startsWithSeq (("b").data) cs then some (1, cs.drop 1)
  else if startsWithSeq (("c").data) cs then some (2, cs.drop 1)
  else none

/-- `[-_.]?N+` — a separated number; consumed only when digits follow. -/
def parseSepNumber (cs : List Char) : Nat × List Char :=
  match cs with
  | c :: rest =>
      if isSepChar c then
        let d := rest.takeWhile Char.isDigit
        if d.isEmpty then (0, cs) else (digitsToNat d, rest.dropWhile Char.isDigit)
      else
        let d := cs.takeWhile Char.isDigit
        if d.isEmpty then (0, cs) else (digitsToNat d, cs.dropWhile Char.isDigit)
  | [] => (0, cs)

/-- `([-_.]?(alpha|beta|preview|pre|rc|a|b|c)[-_.]?N?)?`. -/
def parsePre (cs : List Char) : Option (Nat × Nat) × List Char :=
  let probe := fun (tail : List Char) =>
    match matchPreTag tail with
    | some (rank, rest1) =>
        let r := parseSepNumber rest1
        some ((rank, r.1), r.2)
    | none => none
  match cs with
  | c :: rest =>
      if isSepChar c then
        match probe rest with
        | some x => (some x.1, x.2)
        | none =>
            match probe cs with
            | some x => (some x.1, x.2)
            | none => (none, cs)
      else
        match probe cs with
        | some x => (some x.1, x.2)
        | none => (none, cs)
  | [] => (none, cs)

/-- `(-N)|([-_.]?(post|rev|r)[-_.]?N?)`, optional. -/
def parsePost (cs : List Char) : Option Nat × List Char :=
  let word := fun (tail : List Char) =>
    if startsWithSeq (("post").data) tail then
      let r := parseSepNumber (tail.drop 4)
      some (r.1, r.2)
    else if startsWithSeq (("rev").data) tail then
      let r := parseSepNumber (tail.drop 3)
      some (r.1, r.2)
    else if startsWithSeq (("r").data) tail then
      let r := parseSepNumber (tail.drop 1)
      some (r.1, r.2)
    else none
  match cs with
  | ('-') :: rest =>
      let d := rest.takeWhile Char.isDigit
      if !d.isEmpty then (some (digitsToNat d), rest.dropWhile Char.isDigit)
      else
        match word rest with
        | some x => (some x.1, x.2)
        | none => (none, cs)
  | c :: rest =>
      if isSepChar c then
        match word rest with
        | some x => (some x.1, x.2)
        | none =>
            match word cs with
            | some x => (some x.1, x.2)
            | none => (none, cs)
      else
        match word cs with
        | some x => (some x.1, x.2)
        | none => (none, cs)
  | [] => (none, cs)

/-- `([-_.]?dev[-_.]?N?)?`. -/
def parseDev (cs : List Char) : Option Nat × List Char :=
  let word := fun (tail : List Char) =>
    if startsWithSeq (("dev").data) tail then
      let r := parseSepNumber (tail.drop 3)
      some (r.1, r.2)
    else none
  match cs with
  | c :: rest =>
      if isSepChar c then
        match word rest with
        | some x => (some x.1, x.2)
        | none =>
            match word cs with
            | some x => (some x.1, x.2)
            | none => (none, cs)
      else
        match word cs with
        | some x => (some x.1, x.2)
        | none => (none, cs)
  | [] => (none, cs)

/-- `packaging.version.parse` on the subset reachable from the recipe
filename convention: `v?N(.N)* pre? post? dev?`, case-insensitive; any
leftover input means InvalidVersion (`none`). -/
def pep440Parse (s : String) : Option PVersion :=
  let cs := s.data.map Char.toLower
  let cs := match cs with
    | ('v') :: rest => rest
    | _ => cs
  let d1 := cs.takeWhile Char.isDigit
  if d1.isEmpty then none
  else
    let rest0 := cs.dropWhile Char.isDigit
    let rel := parseDotGroups rest0.length rest0
    let pr := parsePre rel.2
    let po := parsePost pr.2
    let dv := parseDev po.2
    if dv.2.isEmpty then
      some ⟨stripZeros (digitsToNat d1 :: rel.1), pr.1, po.1, dv.1⟩
    else none

/-- PEP 440 comparison key of the pre-release slot, as three numbers
(packaging `_cmpkey`: NegativeInfinity when only a dev-release is
attached, Infinity when there is no pre-release, else the letter rank and
number). -/
def preKey (v : PVersion) : List Nat :=
  match v.pre, v.post, v.dev with
  | none, none, some _ => [0, 0, 0]
  | none, _, _ => [2, 0, 0]
  | some (t, n), _, _ => [1, t, n]

def postKey : Option Nat → List Nat
  | none => [0, 0]
  | some n => [1, n]

def devKey : Option Nat → List Nat
  | none => [1, 0]
  | some n => [0, n]

/-- Injective encoding of a version into one `List Nat` whose
lexicographic order is the PEP 440 order: the release entries shifted by
one, a 0 separator (smaller than any release entry, so with trailing
zeros stripped a strict release prefix compares smaller, matching
zero-padded comparison), then the fixed-width pre/post/dev keys. -/
def vkey (v : PVersion) : List Nat :=
  v.release.map (fun n => n + 1) ++ [0] ++ preKey v ++ postKey v.post ++ devKey v.dev

/-- The dict key of `version_file_dict`: the parsed software version and
the toolchain component, either parsed (`Sum.inl`) or the raw string when
`packaging.version.parse` raised InvalidVersion (`Sum.inr`). -/
abbrev VKey := PVersion × (PVersion ⊕ String)

/-- `sort_key` (aws-eb.py:1028-1033): a non-parseable toolchain string is
replaced by `parse('0')`; the pair orders lexicographically with the
software version dominant, here encoded as one concatenated key. -/
def sortKeyPair (k : VKey) : List Nat :=
  vkey k.1 ++ vkey (match k.2 with | .inl v => v | .inr _ => pzero)

/-- Lexicographic strict order on `List Nat` (Python tuple/list `<`). -/
def natListLt : List Nat → List Nat → Bool
  | [], [] => false
  | [], _ :: _ => true
  | _ :: _, [] => false
  | a :: as, b :: bs => if a < b then true else if a = b then natListLt as bs else false

/- ### The filename version regex
`-(\d+(?:\.\d+)*)(?:-(\w+(?:-\d+(?:\.\d+)*(?:[ab]\d+)?)?))?\.`
(aws-eb.py:1004), as a backtracking matcher whose alternative lists are in
regex priority order (greedy runs longest first, optional groups present
first), with `re.search` trying positions left to right. -/

def isWordChar (c : Char) : Bool := c.isAlphanum || c = '_'

/-- All ways `\d+` can match at the front, longest first. -/
def digitRunAlts (s : List Char) : List (List Char × List Char) :=
  let run := s.takeWhile Char.isDigit
  (List.range run.length).map fun i =>
    let k := run.length - i
    (run.take k, s.drop k)

/-- All ways `\w+` can match at the front, longest first. -/
def wordRunAlts (s : List Char) : List (List Char × List Char) :=
  let run := s.takeWhile isWordChar
  (List.range run.length).map fun i =>
    let k := run.length - i
    (run.take k, s.drop k)

/-- All ways `\.\d+` can match at the front. -/
def dotDigitAlts (s : List Char) : List (List Char × List Char) :=
  match s with
  | ('.') :: rest => (digitRunAlts rest).map fun (p : List Char × List Char) => (('.') :: p.1, p.2)
  | _ => []

/-- All ways `(\.\d+)*` can match at the front, most iterations first. -/
def starDotDigit : Nat → List Char → List (List Char × List Char)
  | 0, s => [([], s)]
  | fuel + 1, s =>
      ((dotDigitAlts s).flatMap fun (p : List Char × List Char) =>
        (starDotDigit fuel p.2).map fun (q : List Char × List Char) =>
          (p.1 ++ q.1, q.2)) ++ [([], s)]

/-- All ways group 1, `\d+(?:\.\d+)*`, can match at the front. -/
def group1Alts (s : List Char) : List (List Char × List Char) :=
  (digitRunAlts s).flatMap fun (p : List Char × List Char) =>
    (starDotDigit p.2.length p.2).map fun (q : List Char × List Char) => (p.1 ++ q.1, q.2)

/-- All ways `[ab]\d+` can match at the front. -/
def abDigitAlts (s : List Char) : List (List Char × List Char) :=
  match s with
  | c :: rest =>
      if c = 'a' ∨ c = 'b' then
        (digitRunAlts rest).map fun (p : List Char × List Char) => (c :: p.1, p.2)
      else []
  | [] => []

/-- All ways the optional toolchain tail `-\d+(?:\.\d+)*(?:[ab]\d+)?` can
match at the front. -/
def group2TailAlts (s : List Char) : List (List Char × List Char) :=
  match s with
  | ('-') :: rest =>
      (digitRunAlts rest).flatMap fun (p : List Char × List Char) =>
        (starDotDigit p.2.length p.2).flatMap fun (q : List Char × List Char) =>
          ((abDigitAlts q.2) ++ [([], q.2)]).map fun (r : List Char × List Char) =>
            (('-') :: (p.1 ++ q.1 ++ r.1), r.2)
  | _ => []

/-- All ways `-(\w+(?:-\d+(?:\.\d+)*(?:[ab]\d+)?)?)` can match at the
front; the returned capture omits the leading dash. -/
def group2Alts (s : List Char) : List (List Char × List Char) :=
  match s with
  | ('-') :: rest =>
      (wordRunAlts rest).flatMap fun (p : List Char × List Char) =>
        ((group2TailAlts p.2) ++ [([], p.2)]).map fun (q : List Char × List Char) =>
          (p.1 ++ q.1, q.2)
  | _ => []

/-- The whole pattern anchored at the current position: the first
(highest-priority) full match, as (group 1, optional group 2). -/
def matchAt (s : List Char) : Option (String × Option String) :=
  match s with
  | ('-') :: rest =>
      ((group1Alts rest).flatMap fun (p : List Char × List Char) =>
        (((group2Alts p.2).map fun (q : List Char × List Char) =>
              ((some q.1 : Option (List Char)), q.2))
            ++ [(none, p.2)]).filterMap fun (alt : Option (List Char) × List Char) =>
          match alt.2 with
          | ('.') :: _ => some (p.1.asString, alt.1.map List.asString)
          | _ => none).head?
  | _ => none

/-- `version_pattern.search(filename)`: positions left to right. -/
def searchAux : List Char → Option (String × Option String)
  | [] => none
  | c :: rest =>
      match matchAt (c :: rest) with
      | some r => some r
      | none => searchAux rest

def versionPatternSearch (f : String) : Option (String × Option String) :=
  searchAux f.data

def strEndsWith (s suffix : String) : Bool :=
  startsWithSeq suffix.data.reverse s.data.reverse

/-- Python dict assignment `d[k] = v`: replace in place or append. -/
def dictSet (d : List (VKey × String)) (k : VKey) (v : String) : List (VKey × String) :=
  match d with
  | [] => [(k, v)]
  | (k0, v0) :: rest => if k0 = k then (k0, v) :: rest else (k0, v0) :: dictSet rest k v

/-- Python dict lookup `d[k]` (keys are unique). -/
def keyLookup (d : List (VKey × String)) (k : VKey) : Option String :=
  match d with
  | [] => none
  | (k0, v0) :: rest => if k0 = k then some v0 else keyLookup rest k

/-- The `version_file_dict` loop of `_get_latest_easyconfig`
(aws-eb.py:1006-1021): for each `.eb` file matching the pattern, parse
group 1 as the software version (always digits and dots, hence always
parseable), default the toolchain to '0' when group 2 is absent, attempt
to parse it, and store filename under the (software, toolchain) key. -/
def versionFileDictAux (acc : List (VKey × String)) :
    List String → List (VKey × String)
  | [] => acc
  | f :: rest =>
    if strEndsWith f (".eb") then
      match versionPatternSearch f with
      | some (g1, g2opt) =>
          match pep440Parse g1 with
          | some sw =>
              let tcStr := g2opt.getD ("0")
              let tk : PVersion ⊕ String :=
                match pep440Parse tcStr with
                | some tv => .inl tv
                | none => .inr tcStr
              versionFileDictAux (dictSet acc (sw, tk) f) rest
          | none => versionFileDictAux acc rest
      | none => versionFileDictAux acc rest
    else versionFileDictAux acc rest

def versionFileDict (files : List String) : List (VKey × String) :=
  versionFileDictAux [] files

/-- Stable insertion for descending sort: `x` goes before the first
element whose key is not greater, so elements earlier in the input stay
first among equal keys — the behaviour of Python
`sorted(keys, key=sort_key, reverse=True)`. -/
def insertDesc (key : VKey → List Nat) (x : VKey) : List VKey → List VKey
  | [] => [x]
  | y :: ys => if natListLt (key x) (key y) then y :: insertDesc key x ys else x :: y :: ys

def sortedRev (key : VKey → List Nat) : List VKey → List VKey
  | [] => []
  | x :: xs => insertDesc key x (sortedRev key xs)

/-- Builder._get_latest_easyconfig (aws-eb.py:1001-1036), from a
directory listing: build `version_file_dict`, return none when empty,
else sort its keys descending by `sort_key` and return the filename
stored under the first key. -/
def latestEasyconfig (files : List String) : Option String :=
  let d := versionFileDict files
  if d.isEmpty then none
  else
    match (sortedRev sortKeyPair (d.map Prod.fst)).head? with
    | some latest => keyLookup d latest
    | none => none

/- ### Order lemmas for the sort key -/

theorem natListLt_irrefl (a : List Nat) : natListLt a a = false := by
  induction a with
  | nil => rfl
  | cons x xs ih => simp [natListLt, ih]

theorem natListLt_asymm : ∀ {a b : List Nat}, natListLt a b = true → natListLt b a = false
  | [], [], h => by simp [natListLt] at h ⊢
  | [], _ :: _, _ => by simp [natListLt]
  | _ :: _, [], h => by simp [natListLt] at h
  | a :: as, b :: bs, h => by
      simp only [natListLt] at h ⊢
      by_cases hab : a < b
      · have : ¬ b < a := Nat.lt_asymm hab
        have : ¬ b = a := fun he => absurd (he ▸ hab) (Nat.lt_irrefl _)
        simp [*]
      · by_cases he : a = b
        · subst he
          simp only [if_neg hab, if_pos rfl] at h
          simp [Nat.lt_irrefl, natListLt_asymm h]
        · simp [hab, he] at h

theorem natListLt_trans : ∀ {a b c : List Nat},
    natListLt a b = true → natListLt b c = true → natListLt a c = true
  | [], _, _ :: _, _, _ => by simp [natListLt]
  | [], _ :: _, [], _, h2 => by simp [natListLt] at h2
  | [], [], [], h1, _ => by simp [natListLt] at h1
  | _ :: _, [], _, h1, _ => by simp [natListLt] at h1
  | _ :: _, _ :: _, [], _, h2 => by simp [natListLt] at h2
  | a :: as, b :: bs, c :: cs, h1, h2 => by
      simp only [natListLt] at h1 h2 ⊢
      rcases Nat.lt_trichotomy a b with hab | hab | hab
      · rcases Nat.lt_trichotomy b c with hbc | hbc | hbc
        · simp [Nat.lt_trans hab hbc]
        · subst hbc; simp [hab]
        · have hf : ¬ b < c := by omega
          have he : b ≠ c := by omega
          simp [hf, he] at h2
      · subst hab
        simp only [Nat.lt_irrefl, if_false, if_pos rfl] at h1
        rcases Nat.lt_trichotomy a c with hac | hac | hac
        · simp [hac]
        · subst hac
          simp only [Nat.lt_irrefl, if_false, if_pos rfl] at h2 ⊢
          exact natListLt_trans h1 h2
        · have hf : ¬ a < c := by omega
          have he : a ≠ c := by omega
          simp [hf, he] at h2
      · have hf : ¬ a < b := by omega
        have he : a ≠ b := by omega
        simp [hf, he] at h1

theorem natListLt_total : ∀ {a b : List Nat},
    natListLt a b = false → natListLt b a = true ∨ a = b
  | [], [], _ => Or.inr rfl
  | [], _ :: _, h => by simp [natListLt] at h
  | _ :: _, [], _ => by simp [natListLt]
  | a :: as, b :: bs, h => by
      simp only [natListLt] at h ⊢
      by_cases hab : a < b
      · simp [hab] at h
      · by_cases hae : a = b
        · subst hae
          simp only [if_neg hab, if_pos rfl] at h
          rcases natListLt_total h with h2 | h2
          · exact Or.inl (by simp [Nat.lt_irrefl, h2])
          · exact Or.inr (by rw [h2])
        · have hba : b < a := by omega
          exact Or.inl (by simp [hba])

theorem insertDesc_head (key : VKey → List Nat) (x : VKey) (l : List VKey) (hd : VKey)
    (h : (insertDesc key x l).head? = some hd) :
    (hd = x ∧ ∀ y, l.head? = some y → natListLt (key x) (key y) = false) ∨
    (l.head? = some hd ∧ natListLt (key x) (key hd) = true) := by
  cases l with
  | nil =>
      simp [insertDesc] at h
      exact Or.inl ⟨h.symm, fun y hy => by simp at hy⟩
  | cons y ys =>
      by_cases hlt : natListLt (key x) (key y) = true
      · simp only [insertDesc, if_pos hlt, List.head?] at h
        injection h with h
        exact Or.inr ⟨by simp [h], by rw [← h]; exact hlt⟩
      · simp only [insertDesc, if_neg hlt, List.head?] at h
        injection h with h
        refine Or.inl ⟨h.symm, fun y0 hy0 => ?_⟩
        simp only [List.head?] at hy0
        injection hy0 with hy0
        rw [← hy0]
        exact Bool.not_eq_true _ ▸ hlt

theorem insertDesc_head_isSome (key : VKey → List Nat) (x : VKey) (l : List VKey) :
    (insertDesc key x l).head?.isSome = true := by
  cases l with
  | nil => rfl
  | cons y ys =>
      by_cases hlt : natListLt (key x) (key y) = true
      · simp [insertDesc, hlt]
      · simp [insertDesc, hlt]

theorem sortedRev_head_max (key : VKey → List Nat) :
    ∀ (l : List VKey) (hd : VKey), (sortedRev key l).head? = some hd →
      ∀ z ∈ l, natListLt (key hd) (key z) = false := by
  intro l
  induction l with
  | nil => intro hd h; simp [sortedRev] at h
  | cons x xs ih =>
      intro hd h z hz
      rcases insertDesc_head key x (sortedRev key xs) hd h with ⟨rfl, hq⟩ | ⟨hold, hxlt⟩
      · rcases List.mem_cons.mp hz with rfl | hzxs
        · exact natListLt_irrefl _
        · cases hxs : xs with
          | nil => subst hxs; simp at hzxs
          | cons w ws =>
              have hsome : (sortedRev key xs).head?.isSome = true := by
                rw [hxs]; exact insertDesc_head_isSome key w (sortedRev key ws)
              obtain ⟨y, hy⟩ := Option.isSome_iff_exists.mp hsome
              have hyz : natListLt (key y) (key z) = false := ih y hy z (hxs ▸ hzxs)
              have hxy : natListLt (key hd) (key y) = false := hq y hy
              cases hxz : natListLt (key hd) (key z) with
              | false => rfl
              | true =>
                  exfalso
                  rcases natListLt_total hxy with h2 | h2
                  · exact absurd (natListLt_trans h2 hxz) (by simp [hyz])
                  · rw [h2] at hxz
                    exact absurd hxz (by simp [hyz])
      · rcases List.mem_cons.mp hz with rfl | hzxs
        · exact natListLt_asymm hxlt
        · exact ih hd hold z hzxs

/- ### Theorems for claim C4 -/

/-- C4 (amended): `latestRecipe` returns the filename stored under a
`(softwareVersion, toolchainVersion)` key that is maximal in the
dictionary under the code's ordering — lexicographic with the software
version dominant, where a non-parseable toolchain token sorts exactly as
the parsed version '0' (hence below every parseable toolchain version
greater than 0, but not below '0' itself or pre-releases of 0); a
directory with pkg-1.2-tcA-1.0.eb and pkg-1.3-tcA-1.0.eb yields the 1.3
file, and a directory with no matching recipe files yields none. -/
theorem C4_corrected :
    (∀ (files : List String) (khd : VKey),
       (sortedRev sortKeyPair ((versionFileDict files).map Prod.fst)).head? = some khd →
       latestEasyconfig files = keyLookup (versionFileDict files) khd ∧
       ∀ k ∈ (versionFileDict files).map Prod.fst,
         natListLt (sortKeyPair khd) (sortKeyPair k) = false) ∧
    (∀ files : List String, versionFileDict files = [] → latestEasyconfig files = none) ∧
    (∀ (sw : PVersion) (s : String), sortKeyPair (sw, Sum.inr s) = vkey sw ++ vkey pzero) ∧
    (latestEasyconfig [("pkg-1.2-tcA-1.0.eb"), ("pkg-1.3-tcA-1.0.eb")]
      = some ("pkg-1.3-tcA-1.0.eb")) ∧
    latestEasyconfig [] = none ∧
    latestEasyconfig [("README.txt"), ("pkg.eb")] = none := by
  refine ⟨?_, ?_, fun sw s => rfl, by rfl, by rfl, by rfl⟩
  · intro files khd hhd
    constructor
    · have hne : ¬ (versionFileDict files).isEmpty = true := by
        intro he
        have hnil : versionFileDict files = [] := by
          cases hv : versionFileDict files with
          | nil => rfl
          | cons a as => rw [hv] at he; simp at he
        rw [hnil] at hhd
        simp [sortedRev] at hhd
      simp only [latestEasyconfig, hne, Bool.false_eq_true, if_false, hhd]
    · intro k hk
      exact sortedRev_head_max sortKeyPair _ khd hhd k hk
  · intro files he
    simp [latestEasyconfig, he]

/-- Witness for C4_corrected at the two-file directory of the claim. -/
theorem C4_corrected_witness :
    latestEasyconfig [("pkg-1.2-tcA-1.0.eb"), ("pkg-1.3-tcA-1.0.eb")]
      = keyLookup (versionFileDict [("pkg-1.2-tcA-1.0.eb"), ("pkg-1.3-tcA-1.0.eb")])
          (⟨[1, 3], none, none, none⟩, Sum.inr ("tcA-1.0")) ∧
    ∀ k ∈ (versionFileDict [("pkg-1.2-tcA-1.0.eb"), ("pkg-1.3-tcA-1.0.eb")]).map Prod.fst,
      natListLt (sortKeyPair (⟨[1, 3], none, none, none⟩, Sum.inr ("tcA-1.0")))
        (sortKeyPair k) = false :=
  C4_corrected.1 [("pkg-1.2-tcA-1.0.eb"), ("pkg-1.3-tcA-1.0.eb")]
    (⟨[1, 3], none, none, none⟩, Sum.inr ("tcA-1.0")) (by rfl)

/-- C4 counterexample: a non-parseable toolchain token does NOT sort
below every parseable one.  In a directory with pkg-1.0-0a1.eb (toolchain
"0a1", a parseable pre-release of 0) and pkg-1.0-abc.eb (toolchain "abc",
not parseable), both with software version 1.0, the code returns the
non-parseable file: the non-parseable token sorts as version '0', which
is strictly above the parseable "0a1", so the claim's ordering (which
puts the non-parseable file strictly below) predicts the other file. -/
theorem C4_counterexample :
    latestEasyconfig [("pkg-1.0-0a1.eb"), ("pkg-1.0-abc.eb")] = some ("pkg-1.0-abc.eb") ∧
    versionFileDict [("pkg-1.0-0a1.eb"), ("pkg-1.0-abc.eb")]
      = [((⟨[1], none, none, none⟩, Sum.inl ⟨[], some (0, 1), none, none⟩),
          ("pkg-1.0-0a1.eb")),
         ((⟨[1], none, none, none⟩, Sum.inr ("abc")), ("pkg-1.0-abc.eb"))] ∧
    pep440Parse ("abc") = none ∧
    pep440Parse ("0a1") = some ⟨[], some (0, 1), none, none⟩ ∧
    natListLt (vkey ⟨[], some (0, 1), none, none⟩) (vkey pzero) = true ∧
    ("pkg-1.0-abc.eb") ≠ ("pkg-1.0-0a1.eb") :=
  ⟨rfl, rfl, rfl, rfl, rfl, by decide⟩
